import Mathlib

/-!
Verification of the supacache Cloudflare Worker (repository `AdvenaHQ/supacache`).
The definitions below are a shallow embedding of `src/index.ts` (worker and the
AES-GCM envelope helpers), the gzip helper module, and the behaviour of the
JavaScript / SQLite environment the code runs in (`btoa` / `atob`,
`Number.parseInt`, the regex in `parseTTL`, SQLite TEXT comparison).
External libraries that the repository calls but does not contain
(pako's gzip, compress-json, WebCrypto AES-GCM, MD5) are taken as parameters,
constrained only by the contracts the specification states for them.
-/

set_option maxHeartbeats 1000000

/-- Characters of the standard base64 alphabet, as used by JavaScript
`btoa` / `atob` (called by `arrayBufferToBase64` / `base64ToArrayBuffer`
in the crypto module and by `gzipCompress` / `gzipExpand`). -/
def base64Chars : List Char :=
  "ABCDEFGHIJKLMNOPQRSTUVWXYZabcdefghijklmnopqrstuvwxyz0123456789+/".data

/-- Base64 character for a six-bit group. Out-of-range indices fall back to
`'A'`; every call site only uses values below 64. -/
def sextetChar (n : Nat) : Char := base64Chars.getD n 'A'

/-- Inverse of `sextetChar`: position of a character in the base64 alphabet. -/
def b64DecodeChar (c : Char) : Option Nat := base64Chars.findIdx? (fun x => x == c)

/-- JavaScript `btoa` over a list of byte values: standard base64 with `=`
padding, three input bytes per four output characters. -/
def btoaChars : List Nat → List Char
  | [] => []
  | [b1] => [sextetChar (b1 / 4), sextetChar (b1 % 4 * 16), '=', '=']
  | [b1, b2] =>
    [sextetChar (b1 / 4), sextetChar (b1 % 4 * 16 + b2 / 16), sextetChar (b2 % 16 * 4), '=']
  | b1 :: b2 :: b3 :: rest =>
    sextetChar (b1 / 4) :: sextetChar (b1 % 4 * 16 + b2 / 16) ::
      sextetChar (b2 % 16 * 4 + b3 / 64) :: sextetChar (b3 % 64) :: btoaChars rest

/-- JavaScript `atob` over a character list: decodes four base64 characters to
three bytes, honouring `=` padding; malformed input yields `none` (the JS
function throws `InvalidCharacterError`). -/
def atobChars : List Char → Option (List Nat)
  | [] => some []
  | c1 :: c2 :: c3 :: c4 :: rest =>
    match b64DecodeChar c1, b64DecodeChar c2 with
    | some s1, some s2 =>
      if c3 = '=' ∧ c4 = '=' ∧ rest = [] then
        some [s1 * 4 + s2 / 16]
      else if c4 = '=' ∧ rest = [] then
        match b64DecodeChar c3 with
        | some s3 => some [s1 * 4 + s2 / 16, s2 % 16 * 16 + s3 / 4]
        | none => none
      else
        match b64DecodeChar c3, b64DecodeChar c4 with
        | some s3, some s4 =>
          (atobChars rest).map
            (fun bs => (s1 * 4 + s2 / 16) :: (s2 % 16 * 16 + s3 / 4) :: ((s3 % 4 * 64 + s4) :: bs))
        | _, _ => none
    | _, _ => none
  | _ => none

/-- String-level `btoa`. -/
def btoa (bs : List Nat) : String := String.mk (btoaChars bs)

/-- String-level `atob`. -/
def atob (s : String) : Option (List Nat) := atobChars s.data

theorem b64DecodeChar_sextetChar : ∀ n, n < 64 → b64DecodeChar (sextetChar n) = some n := by
  decide

theorem sextetChar_mem_or_eq (n : Nat) : sextetChar n ∈ base64Chars ∨ sextetChar n = 'A' := by
  unfold sextetChar List.getD
  cases h : base64Chars.get? n with
  | none => right; rfl
  | some c =>
    left
    have := List.get?_mem h
    simpa using this

theorem sextetChar_ne_pad (n : Nat) : sextetChar n ≠ '=' := by
  rcases sextetChar_mem_or_eq n with h | h
  · intro he; rw [he] at h; revert h; decide
  · rw [h]; decide

theorem sextetChar_ne_colon (n : Nat) : sextetChar n ≠ ':' := by
  rcases sextetChar_mem_or_eq n with h | h
  · intro he; rw [he] at h; revert h; decide
  · rw [h]; decide

theorem atobChars_btoaChars :
    ∀ bs : List Nat, (∀ b ∈ bs, b < 256) → atobChars (btoaChars bs) = some bs
  | [], _ => rfl
  | [b1], h => by
    have hb1 : b1 < 256 := h b1 (by simp)
    have h1 : b1 / 4 < 64 := by omega
    have h2 : b1 % 4 * 16 < 64 := by omega
    have e1 : b1 / 4 * 4 + b1 % 4 * 16 / 16 = b1 := by omega
    simp only [btoaChars, atobChars, b64DecodeChar_sextetChar _ h1, b64DecodeChar_sextetChar _ h2]
    rw [if_pos (by simp), e1]
  | [b1, b2], h => by
    have hb1 : b1 < 256 := h b1 (by simp)
    have hb2 : b2 < 256 := h b2 (by simp)
    have h1 : b1 / 4 < 64 := by omega
    have h2 : b1 % 4 * 16 + b2 / 16 < 64 := by omega
    have h3 : b2 % 16 * 4 < 64 := by omega
    have e1 : b1 / 4 * 4 + (b1 % 4 * 16 + b2 / 16) / 16 = b1 := by omega
    have e2 : (b1 % 4 * 16 + b2 / 16) % 16 * 16 + b2 % 16 * 4 / 4 = b2 := by omega
    simp only [btoaChars, atobChars, b64DecodeChar_sextetChar _ h1, b64DecodeChar_sextetChar _ h2,
      b64DecodeChar_sextetChar _ h3]
    rw [if_neg (fun hc => sextetChar_ne_pad _ hc.1), if_pos (by simp), e1, e2]
  | b1 :: b2 :: b3 :: rest, h => by
    have hb1 : b1 < 256 := h b1 (by simp)
    have hb2 : b2 < 256 := h b2 (by simp)
    have hb3 : b3 < 256 := h b3 (by simp)
    have h1 : b1 / 4 < 64 := by omega
    have h2 : b1 % 4 * 16 + b2 / 16 < 64 := by omega
    have h3 : b2 % 16 * 4 + b3 / 64 < 64 := by omega
    have h4 : b3 % 64 < 64 := by omega
    have e1 : b1 / 4 * 4 + (b1 % 4 * 16 + b2 / 16) / 16 = b1 := by omega
    have e2 : (b1 % 4 * 16 + b2 / 16) % 16 * 16 + (b2 % 16 * 4 + b3 / 64) / 4 = b2 := by omega
    have e3 : (b2 % 16 * 4 + b3 / 64) % 4 * 64 + b3 % 64 = b3 := by omega
    have ih := atobChars_btoaChars rest (fun b hb => h b (by simp [hb]))
    simp only [btoaChars, atobChars, b64DecodeChar_sextetChar _ h1, b64DecodeChar_sextetChar _ h2,
      b64DecodeChar_sextetChar _ h3, b64DecodeChar_sextetChar _ h4]
    rw [if_neg (fun hc => sextetChar_ne_pad _ hc.1),
      if_neg (fun hc => sextetChar_ne_pad _ hc.1), ih, e1, e2, e3]
    rfl

theorem atob_btoa (bs : List Nat) (h : ∀ b ∈ bs, b < 256) : atob (btoa bs) = some bs := by
  unfold atob btoa
  exact atobChars_btoaChars bs h

/-- From the gzip module (`gzipCompress`): base64-encode the gzip-compressed
bytes of a string. Modelled from the spec: pako's `gzip` (stage-2 byte-level
compressor, not part of this repository) is the parameter `gz`. -/
def gzipCompress (gz : String → List Nat) (data : String) : String := btoa (gz data)

/-- From the gzip module (`gzipExpand`): base64-decode, then gzip-decompress
back to a string. Modelled from the spec: pako's `ungzip` (which throws on
corrupt input, hence `Option`) is the parameter `ungz`. -/
def gzipExpand (ungz : List Nat → Option String) (compressedData : String) : Option String :=
  (atob compressedData).bind ungz

/-- Body encoding performed at write time by `cacheResponse` (steps 1 and 2,
before encryption): structural compression of the JSON value, JSON
serialization, then gzip plus base64. Modelled from the spec: compress-json's
`compress` (`cmp`) and `JSON.stringify` (`stringifyJ`) are parameters over an
abstract type `J` of JSON-serializable values. -/
def encodeStoredBody {J : Type} (cmp : J → J) (stringifyJ : J → String)
    (gz : String → List Nat) (x : J) : String :=
  gzipCompress gz (stringifyJ (cmp x))

/-- Body decoding performed at read time by `parseD1Row` (steps 1 and 2, after
decryption): base64 plus gzip expansion, `JSON.parse`, then compress-json
`decompress`, recovering the original JSON value. Modelled from the spec:
`JSON.parse` (`parseJ`) and compress-json's `decompress` (`dcmp`) are
parameters; both fail on malformed input. -/
def decodeStoredBody {J : Type} (dcmp : J → Option J) (parseJ : String → Option J)
    (ungz : List Nat → Option String) (s : String) : Option J :=
  (gzipExpand ungz s).bind (fun t => (parseJ t).bind dcmp)

/-- C3: for every JSON-serializable value `x`, decoding the stored body written
for `x` (base64-decode, gzip-decompress, JSON-parse, structural decompress)
yields `x` unchanged, provided the external codecs meet their contracts at the
intermediate values actually produced: gzip emits bytes and `ungzip` inverts it
on that output, `JSON.parse` inverts `JSON.stringify` on the compressed value,
and compress-json `decompress` inverts `compress` at `x`. -/
theorem compressionRoundTrip {J : Type} (cmp : J → J) (stringifyJ : J → String)
    (gz : String → List Nat) (dcmp : J → Option J) (parseJ : String → Option J)
    (ungz : List Nat → Option String) (x : J)
    (hbytes : ∀ b ∈ gz (stringifyJ (cmp x)), b < 256)
    (hgz : ungz (gz (stringifyJ (cmp x))) = some (stringifyJ (cmp x)))
    (hparse : parseJ (stringifyJ (cmp x)) = some (cmp x))
    (hdcmp : dcmp (cmp x) = some x) :
    decodeStoredBody dcmp parseJ ungz (encodeStoredBody cmp stringifyJ gz x) = some x := by
  unfold decodeStoredBody encodeStoredBody gzipExpand gzipCompress
  rw [atob_btoa _ hbytes]
  simp [hgz, hparse, hdcmp]

theorem compressionRoundTrip_witness :
    (let gz : String → List Nat := fun s => s.data.map Char.toNat
     let ungz : List Nat → Option String := fun l => if l = [48] then some "0" else none
     let stringifyJ : Bool → String := fun b => if b then "1" else "0"
     let parseJ : String → Option Bool :=
       fun s => if s = "1" then some true else if s = "0" then some false else none
     let cmp : Bool → Bool := not
     let dcmp : Bool → Option Bool := fun b => some (!b)
     (∀ b ∈ gz (stringifyJ (cmp true)), b < 256) ∧
       ungz (gz (stringifyJ (cmp true))) = some (stringifyJ (cmp true)) ∧
       parseJ (stringifyJ (cmp true)) = some (cmp true) ∧
       dcmp (cmp true) = some true ∧
       decodeStoredBody dcmp parseJ ungz (encodeStoredBody cmp stringifyJ gz true) = some true) :=
  ⟨by decide, by decide, by decide, by decide,
    compressionRoundTrip _ _ _ _ _ _ true (by decide) (by decide) (by decide) (by decide)⟩

/-- Every character emitted by `btoaChars` is a base64 alphabet character or
the padding character. -/
theorem btoaChars_mem : ∀ (bs : List Nat), ∀ c ∈ btoaChars bs,
    (∃ n, c = sextetChar n) ∨ c = '='
  | [] => by simp [btoaChars]
  | [b1] => by
    intro c hc
    simp only [btoaChars, List.mem_cons, List.not_mem_nil, or_false] at hc
    rcases hc with h | h | h | h
    · exact Or.inl ⟨_, h⟩
    · exact Or.inl ⟨_, h⟩
    · exact Or.inr h
    · exact Or.inr h
  | [b1, b2] => by
    intro c hc
    simp only [btoaChars, List.mem_cons, List.not_mem_nil, or_false] at hc
    rcases hc with h | h | h | h
    · exact Or.inl ⟨_, h⟩
    · exact Or.inl ⟨_, h⟩
    · exact Or.inl ⟨_, h⟩
    · exact Or.inr h
  | b1 :: b2 :: b3 :: rest => by
    intro c hc
    simp only [btoaChars, List.mem_cons] at hc
    rcases hc with h | h | h | h | h
    · exact Or.inl ⟨_, h⟩
    · exact Or.inl ⟨_, h⟩
    · exact Or.inl ⟨_, h⟩
    · exact Or.inl ⟨_, h⟩
    · exact btoaChars_mem rest c h

theorem btoaChars_no_colon (bs : List Nat) : ':' ∉ btoaChars bs := by
  intro hmem
  rcases btoaChars_mem bs ':' hmem with ⟨n, hn⟩ | h
  · exact sextetChar_ne_colon n hn.symm
  · exact absurd h (by decide)

theorem takeWhile_append_all {p : Char → Bool} :
    ∀ l1 l2 : List Char, (∀ x ∈ l1, p x = true) →
      (l1 ++ l2).takeWhile p = l1 ++ l2.takeWhile p
  | [], _, _ => rfl
  | a :: l1, l2, h => by
    have ha : p a = true := h a (by simp)
    simp only [List.cons_append, List.takeWhile_cons, ha, if_true]
    rw [takeWhile_append_all l1 l2 (fun x hx => h x (by simp [hx]))]

theorem dropWhile_append_all {p : Char → Bool} :
    ∀ l1 l2 : List Char, (∀ x ∈ l1, p x = true) →
      (l1 ++ l2).dropWhile p = l2.dropWhile p
  | [], _, _ => rfl
  | a :: l1, l2, h => by
    have ha : p a = true := h a (by simp)
    simp only [List.cons_append, List.dropWhile_cons, ha, if_true]
    exact dropWhile_append_all l1 l2 (fun x hx => h x (by simp [hx]))

theorem takeWhile_all {p : Char → Bool} :
    ∀ l : List Char, (∀ x ∈ l, p x = true) → l.takeWhile p = l
  | [], _ => rfl
  | a :: l, h => by
    have ha : p a = true := h a (by simp)
    simp only [List.takeWhile_cons, ha, if_true]
    rw [takeWhile_all l (fun x hx => h x (by simp [hx]))]

/-- The first two segments of JavaScript `String.prototype.split(":")`, as
consumed by the destructuring in `decrypt`. The second component is `none`
when the string contains no `':'` (the destructured variable is `undefined`,
on which the subsequent `atob` throws). -/
def splitColon2 (s : String) : String × Option String :=
  let pre := s.data.takeWhile (fun c => c != ':')
  match s.data.dropWhile (fun c => c != ':') with
  | [] => (String.mk pre, none)
  | _ :: r => (String.mk pre, some (String.mk (r.takeWhile (fun c => c != ':'))))

/-- The `encrypt` function of the crypto module: AES-GCM-encrypt the UTF-8
bytes of `data` under `key` with the fresh 96-bit IV `iv`, and return
`base64(iv) ++ ":" ++ base64(ciphertext)`. Modelled from the spec: WebCrypto's
AES-GCM encryption (`enc`, applied to key, IV and plaintext bytes) and
`TextEncoder` (`txtEnc`) are parameters; the IV, drawn by
`crypto.getRandomValues`, is an explicit argument. -/
def encrypt {K : Type} (enc : K → List Nat → List Nat → List Nat) (txtEnc : String → List Nat)
    (key : K) (iv : List Nat) (data : String) : String :=
  btoa iv ++ ":" ++ btoa (enc key iv (txtEnc data))

/-- The `decrypt` function of the crypto module: split the envelope on `':'`,
base64-decode IV and ciphertext, AES-GCM-decrypt, and UTF-8-decode the result.
Modelled from the spec: WebCrypto's AES-GCM decryption (`dec`, which rejects
tampered or wrongly-keyed input, hence `Option`) and `TextDecoder` (`txtDec`)
are parameters. Any failure (missing delimiter, malformed base64,
authentication failure) yields `none`. -/
def decrypt {K : Type} (dec : K → List Nat → List Nat → Option (List Nat))
    (txtDec : List Nat → String) (key : K) (encryptedData : String) : Option String :=
  match splitColon2 encryptedData with
  | (_, none) => none
  | (ivB64, some ctB64) =>
    (atob ivB64).bind (fun iv => (atob ctB64).bind (fun ct => (dec key iv ct).map txtDec))

theorem splitColon2_envelope (a b : List Char) (ha : ':' ∉ a) (hb : ':' ∉ b) :
    splitColon2 (String.mk a ++ ":" ++ String.mk b) = (String.mk a, some (String.mk b)) := by
  have hpa : ∀ x ∈ a, (x != ':') = true := by
    intro x hx
    simp only [bne_iff_ne, ne_eq]
    intro hx'
    exact ha (hx' ▸ hx)
  have hpb : ∀ x ∈ b, (x != ':') = true := by
    intro x hx
    simp only [bne_iff_ne, ne_eq]
    intro hx'
    exact hb (hx' ▸ hx)
  have hdata : (String.mk a ++ ":" ++ String.mk b).data = a ++ ':' :: b := by
    show (a ++ [':']) ++ b = a ++ ':' :: b
    simp
  unfold splitColon2
  rw [hdata, takeWhile_append_all a (':' :: b) hpa, dropWhile_append_all a (':' :: b) hpa]
  simp only [List.takeWhile_cons, List.dropWhile_cons, bne_self_eq_false, if_false,
    Bool.false_eq_true, List.append_nil]
  rw [takeWhile_all b hpb]

theorem dropWhile_all {p : Char → Bool} :
    ∀ l : List Char, (∀ x ∈ l, p x = true) → l.dropWhile p = []
  | [], _ => rfl
  | a :: l, h => by
    have ha : p a = true := h a (by simp)
    simp only [List.dropWhile_cons, ha, if_true]
    exact dropWhile_all l (fun x hx => h x (by simp [hx]))

theorem splitColon2_pair (p q : String) (hp : ':' ∉ p.data) (hq : ':' ∉ q.data) :
    splitColon2 (p ++ ":" ++ q) = (p, some q) :=
  splitColon2_envelope p.data q.data hp hq

theorem splitColon2_noColon (s : String) (h : ':' ∉ s.data) :
    (splitColon2 s).2 = none := by
  have hd : s.data.dropWhile (fun c => c != ':') = [] := by
    apply dropWhile_all
    intro x hx
    simp only [bne_iff_ne, ne_eq]
    intro hx'
    exact h (hx' ▸ hx)
  unfold splitColon2
  rw [hd]

/-- C4: for every plaintext string `b` and key `k`, decrypting the envelope
`encrypt` produces under `k` (with the IV it drew) returns `b`, provided the
modelled AES-GCM primitive meets its AEAD contract at those arguments (correct
decryption under the same key, byte-valued outputs) and `TextDecoder` inverts
`TextEncoder` on `b`. Decryption fails closed with `none`, never returning any
plaintext, in every failure case the claim names: under a key `k'` for which
the AEAD primitive rejects the honest ciphertext (wrong key); on any envelope
`base64(iv2):base64(ct2)` — in particular a tampering of the honest one —
whose components the AEAD primitive rejects; on an envelope either of whose
components is not valid base64 (tampered beyond the alphabet); and,
unconditionally with no assumption on the AEAD primitive, on a malformed
envelope containing no `':'` delimiter. -/
theorem encryptionRoundTrip {K : Type} (enc : K → List Nat → List Nat → List Nat)
    (dec : K → List Nat → List Nat → Option (List Nat)) (txtEnc : String → List Nat)
    (txtDec : List Nat → String) (k k' : K) (iv iv2 ct2 : List Nat) (b : String) (s : String)
    (hiv : ∀ x ∈ iv, x < 256)
    (hct : ∀ x ∈ enc k iv (txtEnc b), x < 256)
    (hdec : dec k iv (enc k iv (txtEnc b)) = some (txtEnc b))
    (htxt : txtDec (txtEnc b) = b)
    (hiv2 : ∀ x ∈ iv2, x < 256)
    (hct2 : ∀ x ∈ ct2, x < 256) :
    decrypt dec txtDec k (encrypt enc txtEnc k iv b) = some b
      ∧ (dec k' iv (enc k iv (txtEnc b)) = none →
          decrypt dec txtDec k' (encrypt enc txtEnc k iv b) = none)
      ∧ (dec k' iv2 ct2 = none →
          decrypt dec txtDec k' (btoa iv2 ++ ":" ++ btoa ct2) = none)
      ∧ (∀ p q : String, ':' ∉ p.data → ':' ∉ q.data → atob p = none →
          decrypt dec txtDec k' (p ++ ":" ++ q) = none)
      ∧ (∀ p q : String, ':' ∉ p.data → ':' ∉ q.data → atob q = none →
          decrypt dec txtDec k' (p ++ ":" ++ q) = none)
      ∧ (':' ∉ s.data → decrypt dec txtDec k s = none) := by
  have hsplit : splitColon2 (encrypt enc txtEnc k iv b)
      = (btoa iv, some (btoa (enc k iv (txtEnc b)))) := by
    unfold encrypt btoa
    exact splitColon2_envelope _ _ (btoaChars_no_colon _) (btoaChars_no_colon _)
  refine ⟨?_, ?_, ?_, ?_, ?_, ?_⟩
  · unfold decrypt
    rw [hsplit]
    simp [atob_btoa _ hiv, atob_btoa _ hct, hdec, htxt]
  · intro hfail
    unfold decrypt
    rw [hsplit]
    simp [atob_btoa _ hiv, atob_btoa _ hct, hfail]
  · intro hfail
    have hsplit2 : splitColon2 (btoa iv2 ++ ":" ++ btoa ct2) = (btoa iv2, some (btoa ct2)) := by
      unfold btoa
      exact splitColon2_envelope _ _ (btoaChars_no_colon _) (btoaChars_no_colon _)
    unfold decrypt
    rw [hsplit2]
    simp [atob_btoa _ hiv2, atob_btoa _ hct2, hfail]
  · intro p q hp hq ha
    unfold decrypt
    rw [splitColon2_pair p q hp hq]
    simp [ha]
  · intro p q hp hq ha
    unfold decrypt
    rw [splitColon2_pair p q hp hq]
    cases hap : atob p <;> simp [ha]
  · intro hnc
    have h2 := splitColon2_noColon s hnc
    unfold decrypt
    rcases hsp : splitColon2 s with ⟨p1, p2⟩
    rw [hsp] at h2
    have hp2 : p2 = none := h2
    subst hp2
    rfl

theorem encryptionRoundTrip_witness :
    (let enc : Nat → List Nat → List Nat → List Nat := fun k _ p => k :: p
     let dec : Nat → List Nat → List Nat → Option (List Nat) :=
       fun k _ c => match c with
         | c0 :: cs => if c0 = k then some cs else none
         | [] => none
     let txtEnc : String → List Nat := fun s => s.data.map Char.toNat
     let txtDec : List Nat → String := fun l => String.mk (l.map Char.ofNat)
     let iv : List Nat := [0, 1, 2, 3, 4, 5, 6, 7, 8, 9, 10, 11]
     (∀ x ∈ iv, x < 256) ∧
       (∀ x ∈ enc 1 iv (txtEnc "hi"), x < 256) ∧
       dec 1 iv (enc 1 iv (txtEnc "hi")) = some (txtEnc "hi") ∧
       txtDec (txtEnc "hi") = "hi" ∧
       (∀ x ∈ [7], x < 256) ∧
       (∀ x ∈ [3, 104, 105], x < 256) ∧
       dec 2 iv (enc 1 iv (txtEnc "hi")) = none ∧
       dec 1 [7] [3, 104, 105] = none ∧
       decrypt dec txtDec 1 (encrypt enc txtEnc 1 iv "hi") = some "hi" ∧
       decrypt dec txtDec 2 (encrypt enc txtEnc 1 iv "hi") = none ∧
       decrypt dec txtDec 1 (btoa [7] ++ ":" ++ btoa [3, 104, 105]) = none ∧
       decrypt dec txtDec 1 ("!!" ++ ":" ++ "AA==") = none ∧
       decrypt dec txtDec 1 (btoa [7] ++ ":" ++ "A!") = none ∧
       decrypt dec txtDec 1 "nodivider" = none) :=
  ⟨by decide, by decide, by decide, by decide, by decide, by decide, by decide, by decide,
    (encryptionRoundTrip (fun k _ p => k :: p : Nat → List Nat → List Nat → List Nat)
      (fun k _ c => match c with | c0 :: cs => if c0 = k then some cs else none | [] => none : Nat → List Nat → List Nat → Option (List Nat))
      (fun s => s.data.map Char.toNat : String → List Nat)
      (fun l => String.mk (l.map Char.ofNat) : List Nat → String)
      1 1 [0, 1, 2, 3, 4, 5, 6, 7, 8, 9, 10, 11] [7] [3, 104, 105] "hi" "nodivider"
      (by decide) (by decide) (by decide) (by decide) (by decide) (by decide)).1,
    (encryptionRoundTrip (fun k _ p => k :: p : Nat → List Nat → List Nat → List Nat)
      (fun k _ c => match c with | c0 :: cs => if c0 = k then some cs else none | [] => none : Nat → List Nat → List Nat → Option (List Nat))
      (fun s => s.data.map Char.toNat : String → List Nat)
      (fun l => String.mk (l.map Char.ofNat) : List Nat → String)
      1 2 [0, 1, 2, 3, 4, 5, 6, 7, 8, 9, 10, 11] [7] [3, 104, 105] "hi" "nodivider"
      (by decide) (by decide) (by decide) (by decide) (by decide) (by decide)).2.1 (by decide),
    (encryptionRoundTrip (fun k _ p => k :: p : Nat → List Nat → List Nat → List Nat)
      (fun k _ c => match c with | c0 :: cs => if c0 = k then some cs else none | [] => none : Nat → List Nat → List Nat → Option (List Nat))
      (fun s => s.data.map Char.toNat : String → List Nat)
      (fun l => String.mk (l.map Char.ofNat) : List Nat → String)
      1 1 [0, 1, 2, 3, 4, 5, 6, 7, 8, 9, 10, 11] [7] [3, 104, 105] "hi" "nodivider"
      (by decide) (by decide) (by decide) (by decide) (by decide) (by decide)).2.2.1 (by decide),
    (encryptionRoundTrip (fun k _ p => k :: p : Nat → List Nat → List Nat → List Nat)
      (fun k _ c => match c with | c0 :: cs => if c0 = k then some cs else none | [] => none : Nat → List Nat → List Nat → Option (List Nat))
      (fun s => s.data.map Char.toNat : String → List Nat)
      (fun l => String.mk (l.map Char.ofNat) : List Nat → String)
      1 1 [0, 1, 2, 3, 4, 5, 6, 7, 8, 9, 10, 11] [7] [3, 104, 105] "hi" "nodivider"
      (by decide) (by decide) (by decide) (by decide) (by decide) (by decide)).2.2.2.1 "!!" "AA==" (by decide) (by decide) (by decide),
    (encryptionRoundTrip (fun k _ p => k :: p : Nat → List Nat → List Nat → List Nat)
      (fun k _ c => match c with | c0 :: cs => if c0 = k then some cs else none | [] => none : Nat → List Nat → List Nat → Option (List Nat))
      (fun s => s.data.map Char.toNat : String → List Nat)
      (fun l => String.mk (l.map Char.ofNat) : List Nat → String)
      1 1 [0, 1, 2, 3, 4, 5, 6, 7, 8, 9, 10, 11] [7] [3, 104, 105] "hi" "nodivider"
      (by decide) (by decide) (by decide) (by decide) (by decide) (by decide)).2.2.2.2.1 (btoa [7]) "A!" (by decide) (by decide) (by decide),
    (encryptionRoundTrip (fun k _ p => k :: p : Nat → List Nat → List Nat → List Nat)
      (fun k _ c => match c with | c0 :: cs => if c0 = k then some cs else none | [] => none : Nat → List Nat → List Nat → Option (List Nat))
      (fun s => s.data.map Char.toNat : String → List Nat)
      (fun l => String.mk (l.map Char.ofNat) : List Nat → String)
      1 1 [0, 1, 2, 3, 4, 5, 6, 7, 8, 9, 10, 11] [7] [3, 104, 105] "hi" "nodivider"
      (by decide) (by decide) (by decide) (by decide) (by decide) (by decide)).2.2.2.2.2 (by decide)⟩

/-- Characters treated as leading whitespace by JavaScript `Number.parseInt`
(the common ASCII ones plus NBSP and BOM). -/
def jsWhitespaceChars : List Char :=
  [' ', '\t', '\n', '\r', Char.ofNat 11, Char.ofNat 12, Char.ofNat 0xA0, Char.ofNat 0xFEFF]

def isJsWhitespace (c : Char) : Bool := jsWhitespaceChars.contains c

/-- Value of a non-empty run of decimal digit characters. -/
def digitsToNat (l : List Char) : Nat := l.foldl (fun acc c => acc * 10 + (c.toNat - 48)) 0

/-- Leading-digit parse shared by the sign branches of `Number.parseInt`:
the maximal leading digit run, `none` (JavaScript `NaN`) when it is empty. -/
def coreDigits (r : List Char) : Option Int :=
  let ds := r.takeWhile Char.isDigit
  if ds.isEmpty then none else some (Int.ofNat (digitsToNat ds))

/-- JavaScript `Number.parseInt(s, 10)`: skip whitespace, optional sign,
then a maximal run of decimal digits; `none` models `NaN`. (Arbitrary
precision is used where a JS engine would round to a double; no claim here
depends on values of that size.) -/
def jsParseIntChars (l : List Char) : Option Int :=
  match l.dropWhile isJsWhitespace with
  | [] => none
  | c :: r =>
    if c == '-' then (coreDigits r).map (fun n => -n)
    else if c == '+' then coreDigits r
    else coreDigits (c :: r)

def jsParseInt (s : String) : Option Int := jsParseIntChars s.data

def isPrefixOfChars : List Char → List Char → Bool
  | [], _ => true
  | _ :: _, [] => false
  | a :: as, b :: bs => a == b && isPrefixOfChars as bs

/-- JavaScript `String.prototype.includes`: substring containment. -/
def hasSubstrChars : List Char → List Char → Bool
  | [], needle => isPrefixOfChars needle []
  | h :: t, needle => isPrefixOfChars needle (h :: t) || hasSubstrChars t needle

def hasSubstr (s sub : String) : Bool := hasSubstrChars s.data sub.data

/-- Capture group of the first match of the regex literal `/max-age=(\\d+)/`
from `parseTTL`. In a JavaScript regex literal `\\d` is an escaped backslash
followed by a literal `d`, so the pattern matches the text `max-age=` followed
by a backslash and one or more `d` characters, and the group `(\\d+)` captures
that backslash-and-`d` run — it never captures digits. -/
def maxAgeCapture : List Char → Option (List Char)
  | [] => none
  | c :: rest =>
    if isPrefixOfChars ("max-age=\\d".data) (c :: rest) then
      some ('\\' :: ((c :: rest).drop 9).takeWhile (fun x => x == 'd'))
    else maxAgeCapture rest

/-- Default TTL from `src/index.ts`: 900 seconds. -/
def defaultTTL : Int := 900

/-- The `parseTTL` function of `src/index.ts`, over the `x-ttl` and
`Cache-Control` request header values (`none` when the header is absent; an
empty header string is falsy in JS and takes the same branch as an absent
one). The final guard re-parses the accumulated value and falls back to the
default unless it is a number greater than zero. -/
def parseTTL (xttlHeader ccHeader : Option String) : Int :=
  let xttl : Option String :=
    match xttlHeader with
    | some t => if t.isEmpty then none else some t
    | none => none
  let cc : Option String :=
    match ccHeader with
    | some c => if c.isEmpty then none else some c
    | none => none
  let useTTL : Option Int :=
    match xttl with
    | some t => jsParseInt t
    | none =>
      match cc with
      | some c =>
        match maxAgeCapture c.data with
        | some cap => jsParseIntChars cap
        | none => some defaultTTL
      | none => some defaultTTL
  match useTTL with
  | some t => if 0 < t then t else defaultTTL
  | none => defaultTTL

theorem maxAgeCapture_starts_backslash :
    ∀ l cap, maxAgeCapture l = some cap → ∃ t, cap = '\\' :: t := by
  intro l
  induction l with
  | nil => intro cap h; simp [maxAgeCapture] at h
  | cons c rest ih =>
    intro cap h
    rw [maxAgeCapture] at h
    by_cases hp : isPrefixOfChars ("max-age=\\d".data) (c :: rest) = true
    · rw [if_pos hp] at h
      exact ⟨_, (Option.some.injEq _ _ ▸ h).symm⟩
    · rw [if_neg hp] at h
      exact ih cap h

theorem jsParseIntChars_backslash (t : List Char) : jsParseIntChars ('\\' :: t) = none := by
  have h1 : isJsWhitespace '\\' = false := by decide
  have h2 : ('\\' == '-') = false := by decide
  have h3 : ('\\' == '+') = false := by decide
  have h4 : Char.isDigit '\\' = false := by decide
  simp [jsParseIntChars, List.dropWhile_cons, h1, h2, h3, coreDigits, List.takeWhile_cons, h4]

/-- C2 (code bug): because the regex literal `/max-age=(\\d+)/` matches a
literal backslash followed by `d` characters — never digits — the
`Cache-Control: max-age=N` fallback documented in the code comments and the
spec can never produce `N`. With `X-TTL` absent, `parseTTL` returns the fixed
default 900 for every `Cache-Control` value, in particular for `max-age=300`,
where the claim requires 300. -/
theorem parseTTL_maxAge_never_honored :
    parseTTL none (some "max-age=300") = 900
      ∧ parseTTL none (some "max-age=300") ≠ 300
      ∧ (∀ cc : String, parseTTL none (some cc) = 900) := by
  refine ⟨by decide, by decide, ?_⟩
  intro cc
  unfold parseTTL
  by_cases hcc : cc.isEmpty
  · simp [hcc, defaultTTL]
  · simp only [hcc, if_false, Bool.false_eq_true]
    cases hm : maxAgeCapture cc.data with
    | none => simp [defaultTTL]
    | some cap =>
      obtain ⟨t, ht⟩ := maxAgeCapture_starts_backslash _ _ hm
      subst ht
      simp [jsParseIntChars_backslash, defaultTTL]

/-- A UTC wall-clock instant, the data both timestamp formats print. -/
structure UtcDateTime where
  year : Nat
  month : Nat
  day : Nat
  hour : Nat
  minute : Nat
  second : Nat
  deriving DecidableEq

def pad2 (n : Nat) : String := if n < 10 then "0" ++ toString n else toString n

/-- JavaScript `Date.prototype.toISOString` at a whole second:
`YYYY-MM-DDTHH:MM:SS.000Z`. This is the format `cacheResponse` stores in the
`expires` column. -/
def toISOStringModel (d : UtcDateTime) : String :=
  toString d.year ++ "-" ++ pad2 d.month ++ "-" ++ pad2 d.day ++ "T" ++
    pad2 d.hour ++ ":" ++ pad2 d.minute ++ ":" ++ pad2 d.second ++ ".000Z"

/-- SQLite `CURRENT_TIMESTAMP`: `YYYY-MM-DD HH:MM:SS` (UTC), the value
`getCachedResponse`'s query compares `expires` against. -/
def currentTimestampModel (d : UtcDateTime) : String :=
  toString d.year ++ "-" ++ pad2 d.month ++ "-" ++ pad2 d.day ++ " " ++
    pad2 d.hour ++ ":" ++ pad2 d.minute ++ ":" ++ pad2 d.second

def ltChars : List Char → List Char → Bool
  | [], [] => false
  | [], _ :: _ => true
  | _ :: _, [] => false
  | a :: as, b :: bs =>
    if a.toNat < b.toNat then true
    else if b.toNat < a.toNat then false
    else ltChars as bs

/-- SQLite's `>` on two TEXT values under the default BINARY collation:
byte-wise (for ASCII, code-point-wise) lexicographic comparison. The `expires`
column has NUMERIC affinity, but neither the stored ISO string nor
`CURRENT_TIMESTAMP` converts to a number, so both compare as TEXT. -/
def sqliteTextGt (a b : String) : Bool := ltChars b.data a.data

/-- Chronological order key of a `UtcDateTime` (strictly monotone in the
lexicographic field order for in-range dates). -/
def dtCode (d : UtcDateTime) : Nat :=
  ((((d.year * 13 + d.month) * 32 + d.day) * 24 + d.hour) * 60 + d.minute) * 60 + d.second

/-- Inbound request as the worker reads it: method, full URL, and the three
headers the worker consults. -/
structure RequestModel where
  method : String
  url : String
  serviceKeyHeader : Option String
  xttlHeader : Option String
  cacheControlHeader : Option String
  deriving DecidableEq

/-- Upstream (Supabase) response as the worker reads it: status, the `ok`
flag, the `Cache-Control` response header, body text, and the JSON
serialization of the header list that `cacheResponse` persists. -/
structure ResponseModel where
  status : Nat
  ok : Bool
  cacheControl : Option String
  body : String
  headersJson : String
  deriving DecidableEq

/-- A row of the cache table (`key`, `body`, `status`, `headers`, `expires`).
The body blob is kept as the stored string (the `TextEncoder`/`TextDecoder`
round trip on the envelope is the identity on its ASCII text). -/
structure CacheRow where
  key : String
  body : String
  status : Nat
  headers : String
  expires : String
  deriving DecidableEq

/-- Outcome of one `fetch` handler run, together with counters for the store
and upstream interactions it performed. -/
inductive HandlerResponse where
  | unauthorized
  | upstream (r : ResponseModel)
  | cached (body : String) (status : Nat) (headers : String)
  deriving DecidableEq

structure HandlerResult where
  response : HandlerResponse
  storeReads : Nat
  storeWrites : List CacheRow
  upstreamCalls : Nat
  deriving DecidableEq

/-- Environment of one handler run: the provisioned secret, the external
capabilities the worker composes (modelled from the spec: MD5 digest, the
full body codec chain of `cacheResponse` / `parseD1Row`, `Date` formatting of
`now + ttl*1000`), the store content, and SQLite's `CURRENT_TIMESTAMP` at
lookup time. -/
structure HandlerCtx where
  serviceAuthKey : String
  md5 : String → List Nat
  encodeBody : String → String
  decodeBody : String → Option String
  isoExpires : Int → String
  nowSql : String
  upstream : RequestModel → ResponseModel
  store : String → Option CacheRow

/-- `isValidServiceKey` from `src/index.ts`: strict equality; a missing header
(`null`) never equals the provisioned string. -/
def isValidServiceKey (key : Option String) (expectedKey : String) : Bool :=
  match key with
  | some k => k == expectedKey
  | none => false

/-- `bypassCacheOnPath` from `src/index.ts`. -/
def bypassCacheOnPath : List String := ["/realtime/", "/subscriptions/"]

/-- `canCacheEndpoint` from `src/index.ts`: the URL string contains none of
the bypass substrings. -/
def canCacheEndpoint (url : String) : Bool :=
  !(bypassCacheOnPath.any (fun path => hasSubstr url path))

def hexDigit (n : Nat) : Char := "0123456789abcdef".data.getD n '0'

/-- One byte rendered as two lowercase hex characters
(`b.toString(16).padStart(2, "0")`). -/
def byteToHex (b : Nat) : String := String.mk [hexDigit (b / 16), hexDigit (b % 16)]

/-- `generateCacheKey` from `src/index.ts`: hex digest of the MD5 hash of the
URL string. Modelled from the spec: the MD5 primitive (`crypto.subtle.digest`)
is the `md5` parameter; the URL is its only input. -/
def generateCacheKey (md5 : String → List Nat) (url : String) : String :=
  String.join ((md5 url).map byteToHex)

/-- The row selected by `SELECT ... WHERE key = ? AND expires > CURRENT_TIMESTAMP`:
the stored row for `key`, if its `expires` text compares greater than the
current timestamp text. -/
def lookupFreshRow (store : String → Option CacheRow) (nowSql : String) (key : String) :
    Option CacheRow :=
  match store key with
  | some row => if sqliteTextGt row.expires nowSql then some row else none
  | none => none

/-- `getCachedResponse` from `src/index.ts`: query the fresh row, decode its
body via `parseD1Row` (whose `try`/`catch` makes any decode failure `none`),
and surface body, status and headers; both an absent/stale row and a decode
failure yield `none`. -/
def getCachedResponse (decodeBody : String → Option String)
    (store : String → Option CacheRow) (nowSql : String) (cacheKey : String) :
    Option (String × Nat × String) :=
  match lookupFreshRow store nowSql cacheKey with
  | some row =>
    match decodeBody row.body with
    | some b => some (b, row.status, row.headers)
    | none => none
  | none => none

/-- The `no-store` test of `shouldCacheResponse`: substring check on the
response `Cache-Control` header; an absent header is falsy. -/
def ccHasNoStore (response : ResponseModel) : Bool :=
  match response.cacheControl with
  | some s => hasSubstr s "no-store"
  | none => false

/-- `shouldCacheResponse` from `src/index.ts`, with its five checks in source
order. -/
def shouldCacheResponse (request : RequestModel) (response : ResponseModel) : Bool :=
  if !response.ok then false
  else if response.status < 200 || 300 ≤ response.status then false
  else if ccHasNoStore response then false
  else if request.method != "GET" && request.method != "HEAD" then false
  else if hasSubstr request.url "/rest/" && !hasSubstr request.url "?select=" then false
  else true

/-- The row `cacheResponse` upserts: encoded body, response status, serialized
headers, and `expires = toISOString(Date.now() + ttl * 1000)`. -/
def cacheResponse (ctx : HandlerCtx) (cacheKey : String) (response : ResponseModel)
    (ttl : Int) : CacheRow :=
  { key := cacheKey
    body := ctx.encodeBody response.body
    status := response.status
    headers := response.headersJson
    expires := ctx.isoExpires ttl }

/-- The worker's `fetch` handler: service-key check, then bypass check, then
read-through cache (lookup; on miss fetch upstream and conditionally store).
Store reads/writes and upstream calls are counted as they occur in the
source. -/
def runFetch (ctx : HandlerCtx) (request : RequestModel) : HandlerResult :=
  if !isValidServiceKey request.serviceKeyHeader ctx.serviceAuthKey then
    { response := .unauthorized, storeReads := 0, storeWrites := [], upstreamCalls := 0 }
  else
    let cacheKey := generateCacheKey ctx.md5 request.url
    let ttl := parseTTL request.xttlHeader request.cacheControlHeader
    if !canCacheEndpoint request.url then
      { response := .upstream (ctx.upstream request), storeReads := 0, storeWrites := [],
        upstreamCalls := 1 }
    else
      match getCachedResponse ctx.decodeBody ctx.store ctx.nowSql cacheKey with
      | some (b, st, hd) =>
        { response := .cached b st hd, storeReads := 1, storeWrites := [], upstreamCalls := 0 }
      | none =>
        let resp := ctx.upstream request
        if shouldCacheResponse request resp then
          { response := .upstream resp, storeReads := 1,
            storeWrites := [cacheResponse ctx cacheKey resp ttl], upstreamCalls := 1 }
        else
          { response := .upstream resp, storeReads := 1, storeWrites := [], upstreamCalls := 1 }

/-- HTTP status of a handler outcome (`Unauthorized` is a 401 response). -/
def responseStatus : HandlerResponse → Nat
  | .unauthorized => 401
  | .upstream r => r.status
  | .cached _ st _ => st

/-- C1 (code bug): an entry written at 2025-01-01T00:00:00Z with `ttl = 60`
stores `expires = "2025-01-01T00:01:00.000Z"` (ISO-8601, from `toISOString`),
but the lookup compares that text against SQLite's `CURRENT_TIMESTAMP`
(`"2025-01-01 00:01:01"`). One second before expiry the row is a hit, as the
claim requires — but one second after expiry it is still a hit, because the
byte comparison decides at index 10 where `'T' > ' '`; so the stored expiry
does not satisfy `expires > now` exactly when `now < writeTime + T`, and the
required miss at `writeTime + T + 1s` does not happen (the row stays fresh
until the UTC date itself advances). -/
theorem ttlBoundary_lookup_bug :
    (let row : CacheRow :=
      { key := "k", body := "b", status := 200, headers := "[]",
        expires := toISOStringModel ⟨2025, 1, 1, 0, 1, 0⟩ }
     let store : String → Option CacheRow := fun k => if k = "k" then some row else none
     lookupFreshRow store (currentTimestampModel ⟨2025, 1, 1, 0, 0, 59⟩) "k" = some row
       ∧ lookupFreshRow store (currentTimestampModel ⟨2025, 1, 1, 0, 1, 1⟩) "k" = some row
       ∧ dtCode ⟨2025, 1, 1, 0, 1, 1⟩ > dtCode ⟨2025, 1, 1, 0, 1, 0⟩) := by
  decide

theorem shouldCacheResponse_false_of_gate (request : RequestModel) (response : ResponseModel)
    (h : request.method = "POST" ∨ ccHasNoStore response = true
        ∨ response.status < 200 ∨ 299 < response.status) :
    shouldCacheResponse request response = false := by
  unfold shouldCacheResponse
  split_ifs with h1 h2 h3 h4 h5 <;> try rfl
  exfalso
  rcases h with h | h | h | h
  · rw [h] at h4; exact h4 (by decide)
  · exact h3 h
  · simp only [Bool.or_eq_true, decide_eq_true_eq, not_or] at h2; omega
  · simp only [Bool.or_eq_true, decide_eq_true_eq, not_or] at h2; omega

/-- C5: a response is written to the store only when `shouldCacheResponse`
passes; in particular a POST request, a response whose `Cache-Control` carries
`no-store`, or a response with status outside 200..299 is never stored, on any
path through the handler. -/
theorem eligibilityGating (ctx : HandlerCtx) (request : RequestModel)
    (h : request.method = "POST" ∨ ccHasNoStore (ctx.upstream request) = true
        ∨ (ctx.upstream request).status < 200 ∨ 299 < (ctx.upstream request).status) :
    (runFetch ctx request).storeWrites = [] := by
  unfold runFetch
  split
  · rfl
  · split
    · rfl
    · dsimp only
      split
      · rfl
      · simp [shouldCacheResponse_false_of_gate request (ctx.upstream request) h]

theorem eligibilityGating_witness :
    (let ctx : HandlerCtx :=
      { serviceAuthKey := "s"
        md5 := fun _ => [0]
        encodeBody := fun s => s
        decodeBody := fun s => some s
        isoExpires := fun _ => "9"
        nowSql := "0"
        upstream := fun _ =>
          { status := 200, ok := true, cacheControl := none, body := "b", headersJson := "[]" }
        store := fun _ => none }
     let req : RequestModel :=
      { method := "POST", url := "https://w.example/rest/v1/c?select=*",
        serviceKeyHeader := some "s", xttlHeader := none, cacheControlHeader := none }
     req.method = "POST" ∧ (runFetch ctx req).storeWrites = []) :=
  ⟨rfl, eligibilityGating _ _ (Or.inl rfl)⟩

/-- C6 counterexample: a request to a bypass-path URL whose
`X-Cache-Service-Key` header is missing is answered with 401 and is NOT
delegated to the upstream fetch — the authentication check at the top of the
handler precedes the bypass check, refuting the claim that every bypass-path
request is proxied upstream regardless of headers. -/
theorem bypassPrecedence_counterexample :
    (let ctx : HandlerCtx :=
      { serviceAuthKey := "secret"
        md5 := fun _ => [0]
        encodeBody := fun s => s
        decodeBody := fun s => some s
        isoExpires := fun _ => "9"
        nowSql := "0"
        upstream := fun _ =>
          { status := 200, ok := true, cacheControl := none, body := "b", headersJson := "[]" }
        store := fun _ => none }
     let req : RequestModel :=
      { method := "GET", url := "https://w.example/realtime/feed",
        serviceKeyHeader := none, xttlHeader := none, cacheControlHeader := none }
     canCacheEndpoint req.url = false
       ∧ (runFetch ctx req).upstreamCalls = 0
       ∧ (runFetch ctx req).response = .unauthorized) := by
  decide

/-- C6 (amended): a request to a bypass-path URL never produces a store read
or a store write, regardless of method or headers; and whenever it passes the
service-key check it is delegated directly to the upstream fetch and that
response is returned verbatim. -/
theorem bypassPrecedence (ctx : HandlerCtx) (request : RequestModel)
    (h : canCacheEndpoint request.url = false) :
    (runFetch ctx request).storeReads = 0 ∧ (runFetch ctx request).storeWrites = []
      ∧ (isValidServiceKey request.serviceKeyHeader ctx.serviceAuthKey = true →
          (runFetch ctx request).response = .upstream (ctx.upstream request)
            ∧ (runFetch ctx request).upstreamCalls = 1) := by
  unfold runFetch
  by_cases hv : isValidServiceKey request.serviceKeyHeader ctx.serviceAuthKey = true
  · simp [hv, h]
  · simp [Bool.not_eq_true] at hv
    simp [hv]

theorem bypassPrecedence_witness :
    (let ctx : HandlerCtx :=
      { serviceAuthKey := "secret"
        md5 := fun _ => [0]
        encodeBody := fun s => s
        decodeBody := fun s => some s
        isoExpires := fun _ => "9"
        nowSql := "0"
        upstream := fun _ =>
          { status := 200, ok := true, cacheControl := none, body := "b", headersJson := "[]" }
        store := fun _ => none }
     let req : RequestModel :=
      { method := "POST", url := "https://w.example/subscriptions/s1",
        serviceKeyHeader := some "secret", xttlHeader := none, cacheControlHeader := none }
     canCacheEndpoint req.url = false
       ∧ ((runFetch ctx req).storeReads = 0 ∧ (runFetch ctx req).storeWrites = []
          ∧ (isValidServiceKey req.serviceKeyHeader ctx.serviceAuthKey = true →
              (runFetch ctx req).response = .upstream (ctx.upstream req)
                ∧ (runFetch ctx req).upstreamCalls = 1))) :=
  ⟨by decide, bypassPrecedence _ _ (by decide)⟩

/-- C7: a request whose `X-Cache-Service-Key` header is missing or differs
from the provisioned `SERVICE_AUTH_KEY` receives a 401 response and triggers
no upstream fetch, no store read and no store write. -/
theorem authFailureIsolated (ctx : HandlerCtx) (request : RequestModel)
    (h : ∀ s, request.serviceKeyHeader = some s → s ≠ ctx.serviceAuthKey) :
    responseStatus (runFetch ctx request).response = 401
      ∧ (runFetch ctx request).upstreamCalls = 0
      ∧ (runFetch ctx request).storeReads = 0
      ∧ (runFetch ctx request).storeWrites = [] := by
  have hv : isValidServiceKey request.serviceKeyHeader ctx.serviceAuthKey = false := by
    unfold isValidServiceKey
    cases hk : request.serviceKeyHeader with
    | none => rfl
    | some s =>
      simp only [beq_eq_false_iff_ne, ne_eq]
      exact h s hk
  unfold runFetch
  simp [hv, responseStatus]

theorem authFailureIsolated_witness :
    (let ctx : HandlerCtx :=
      { serviceAuthKey := "secret"
        md5 := fun _ => [0]
        encodeBody := fun s => s
        decodeBody := fun s => some s
        isoExpires := fun _ => "9"
        nowSql := "0"
        upstream := fun _ =>
          { status := 200, ok := true, cacheControl := none, body := "b", headersJson := "[]" }
        store := fun _ => none }
     let req : RequestModel :=
      { method := "GET", url := "https://w.example/rest/v1/c?select=*",
        serviceKeyHeader := some "wrong", xttlHeader := none, cacheControlHeader := none }
     (∀ s, req.serviceKeyHeader = some s → s ≠ ctx.serviceAuthKey)
       ∧ (responseStatus (runFetch ctx req).response = 401
          ∧ (runFetch ctx req).upstreamCalls = 0
          ∧ (runFetch ctx req).storeReads = 0
          ∧ (runFetch ctx req).storeWrites = [])) :=
  ⟨fun s hs => by
      simp only [Option.some.injEq] at hs
      rw [← hs]
      decide,
    authFailureIsolated _ _ (fun s hs => by
      simp only [Option.some.injEq] at hs
      rw [← hs]
      decide)⟩

/-- C8: when the stored row for the request's key is fresh but its body fails
to decode (wrong key, tampering, or malformed compressed data), the handler
behaves exactly as if no row existed: the run is identical to a run against a
store with that row removed, no failure escapes (the model is total, mirroring
the `try`/`catch` in `parseD1Row`), and the request proceeds to the upstream
fetch. -/
theorem decodeFailureIsMiss (ctx : HandlerCtx) (request : RequestModel) (row : CacheRow)
    (hrow : ctx.store (generateCacheKey ctx.md5 request.url) = some row)
    (hfresh : sqliteTextGt row.expires ctx.nowSql = true)
    (hdec : ctx.decodeBody row.body = none) :
    runFetch ctx request
      = runFetch
          { ctx with store := fun k =>
              if k = generateCacheKey ctx.md5 request.url then none else ctx.store k }
          request
      ∧ (isValidServiceKey request.serviceKeyHeader ctx.serviceAuthKey = true →
          canCacheEndpoint request.url = true →
          (runFetch ctx request).response = .upstream (ctx.upstream request)
            ∧ (runFetch ctx request).upstreamCalls = 1) := by
  have hg : getCachedResponse ctx.decodeBody ctx.store ctx.nowSql
      (generateCacheKey ctx.md5 request.url) = none := by
    unfold getCachedResponse lookupFreshRow
    rw [hrow]
    simp [hfresh, hdec]
  have hg' : getCachedResponse ctx.decodeBody
      (fun k => if k = generateCacheKey ctx.md5 request.url then none else ctx.store k)
      ctx.nowSql (generateCacheKey ctx.md5 request.url) = none := by
    unfold getCachedResponse lookupFreshRow
    simp
  constructor
  · unfold runFetch
    simp only [hg, hg']
    rfl
  · intro hv hcan
    unfold runFetch
    simp only [hv, hcan, Bool.not_true, Bool.false_eq_true, if_false, hg]
    split <;> simp

theorem decodeFailureIsMiss_witness :
    (let ctx : HandlerCtx :=
      { serviceAuthKey := "s"
        md5 := fun _ => [0]
        encodeBody := fun s => s
        decodeBody := fun _ => none
        isoExpires := fun _ => "9"
        nowSql := "1"
        upstream := fun _ =>
          { status := 200, ok := true, cacheControl := none, body := "b", headersJson := "[]" }
        store := fun k =>
          if k = "00" then
            some { key := "00", body := "junk", status := 200, headers := "[]", expires := "2" }
          else none }
     let req : RequestModel :=
      { method := "GET", url := "https://w.example/rest/v1/c?select=*",
        serviceKeyHeader := some "s", xttlHeader := none, cacheControlHeader := none }
     ctx.store (generateCacheKey ctx.md5 req.url)
        = some { key := "00", body := "junk", status := 200, headers := "[]", expires := "2" }
       ∧ sqliteTextGt "2" ctx.nowSql = true
       ∧ ctx.decodeBody "junk" = none
       ∧ (runFetch ctx req
            = runFetch
                { ctx with store := fun k =>
                    if k = generateCacheKey ctx.md5 req.url then none else ctx.store k }
                req
          ∧ (isValidServiceKey req.serviceKeyHeader ctx.serviceAuthKey = true →
              canCacheEndpoint req.url = true →
              (runFetch ctx req).response = .upstream (ctx.upstream req)
                ∧ (runFetch ctx req).upstreamCalls = 1))) :=
  ⟨by decide, by decide, rfl,
    decodeFailureIsMiss _ _
      { key := "00", body := "junk", status := 200, headers := "[]", expires := "2" }
      (by decide) (by decide) rfl⟩

/-- C9: the bypass test is a substring check on the whole URL string, not only
its path: any URL containing `/realtime/` or `/subscriptions/` anywhere —
including inside the query string — fails `canCacheEndpoint`, and such an
(authenticated) request is proxied directly upstream with no store read or
write. -/
theorem bypassMatchesWholeUrl (ctx : HandlerCtx) (request : RequestModel)
    (h : hasSubstr request.url "/realtime/" = true
        ∨ hasSubstr request.url "/subscriptions/" = true) :
    canCacheEndpoint request.url = false
      ∧ (isValidServiceKey request.serviceKeyHeader ctx.serviceAuthKey = true →
          (runFetch ctx request).response = .upstream (ctx.upstream request)
            ∧ (runFetch ctx request).storeReads = 0
            ∧ (runFetch ctx request).storeWrites = []
            ∧ (runFetch ctx request).upstreamCalls = 1) := by
  have hb : canCacheEndpoint request.url = false := by
    unfold canCacheEndpoint bypassCacheOnPath
    rcases h with h | h <;> simp [h]
  refine ⟨hb, fun hv => ?_⟩
  unfold runFetch
  simp [hv, hb]

theorem bypassMatchesWholeUrl_witness :
    (let ctx : HandlerCtx :=
      { serviceAuthKey := "s"
        md5 := fun _ => [0]
        encodeBody := fun s => s
        decodeBody := fun s => some s
        isoExpires := fun _ => "9"
        nowSql := "0"
        upstream := fun _ =>
          { status := 200, ok := true, cacheControl := none, body := "b", headersJson := "[]" }
        store := fun _ => none }
     let req : RequestModel :=
      { method := "GET", url := "https://w.example/rest/v1/chans?select=*&topic=/realtime/t1",
        serviceKeyHeader := some "s", xttlHeader := none, cacheControlHeader := none }
     hasSubstr req.url "/realtime/" = true
       ∧ (canCacheEndpoint req.url = false
          ∧ (isValidServiceKey req.serviceKeyHeader ctx.serviceAuthKey = true →
              (runFetch ctx req).response = .upstream (ctx.upstream req)
                ∧ (runFetch ctx req).storeReads = 0
                ∧ (runFetch ctx req).storeWrites = []
                ∧ (runFetch ctx req).upstreamCalls = 1))) :=
  ⟨by decide, bypassMatchesWholeUrl _ _ (Or.inl (by decide))⟩

/-- C10: the cache key is a function of the request URL alone (the hex MD5 of
the URL string), so two requests with the same URL share a key regardless of
method or headers; concretely, after an eligible GET populates the cache, a
HEAD request for the same URL (under a timestamp at which the row is selected
and with the body codec inverting on this body) is answered from the cache
with the stored GET body, status and headers, with no upstream call. -/
theorem cacheKeyUrlOnly_headHitsGet (ctx : HandlerCtx) (req1 req2 : RequestModel)
    (nowSql2 : String)
    (hurl : req2.url = req1.url)
    (hk1 : isValidServiceKey req1.serviceKeyHeader ctx.serviceAuthKey = true)
    (hk2 : isValidServiceKey req2.serviceKeyHeader ctx.serviceAuthKey = true)
    (hm1 : req1.method = "GET")
    (hcan : canCacheEndpoint req1.url = true)
    (hmiss : ctx.store (generateCacheKey ctx.md5 req1.url) = none)
    (hok : (ctx.upstream req1).ok = true)
    (hst : 200 ≤ (ctx.upstream req1).status ∧ (ctx.upstream req1).status < 300)
    (hns : ccHasNoStore (ctx.upstream req1) = false)
    (hsel : hasSubstr req1.url "/rest/" = false ∨ hasSubstr req1.url "?select=" = true)
    (hcodec : ctx.decodeBody (ctx.encodeBody (ctx.upstream req1).body)
        = some (ctx.upstream req1).body)
    (hfresh : sqliteTextGt (ctx.isoExpires (parseTTL req1.xttlHeader req1.cacheControlHeader))
        nowSql2 = true) :
    generateCacheKey ctx.md5 req2.url = generateCacheKey ctx.md5 req1.url
      ∧ ∃ row, (runFetch ctx req1).storeWrites = [row]
        ∧ (runFetch { ctx with nowSql := nowSql2, store := fun k => if k = row.key then some row else ctx.store k } req2).response
            = .cached (ctx.upstream req1).body (ctx.upstream req1).status
                (ctx.upstream req1).headersJson
        ∧ (runFetch { ctx with nowSql := nowSql2, store := fun k => if k = row.key then some row else ctx.store k } req2).upstreamCalls
            = 0 := by
  have hshould : shouldCacheResponse req1 (ctx.upstream req1) = true := by
    unfold shouldCacheResponse
    have hst' : ((ctx.upstream req1).status < 200 || 300 ≤ (ctx.upstream req1).status)
        = false := by
      simp only [Bool.or_eq_false_iff, decide_eq_false_iff_not]
      omega
    have hm' : (req1.method != "GET" && req1.method != "HEAD") = false := by
      rw [hm1]; decide
    have hsel' : (hasSubstr req1.url "/rest/" && !hasSubstr req1.url "?select=") = false := by
      rcases hsel with h | h <;> simp [h]
    simp [hok, hst', hns, hm', hsel']
  have hget1 : getCachedResponse ctx.decodeBody ctx.store ctx.nowSql
      (generateCacheKey ctx.md5 req1.url) = none := by
    unfold getCachedResponse lookupFreshRow
    rw [hmiss]
  have hwrites : (runFetch ctx req1).storeWrites
      = [cacheResponse ctx (generateCacheKey ctx.md5 req1.url) (ctx.upstream req1)
          (parseTTL req1.xttlHeader req1.cacheControlHeader)] := by
    unfold runFetch
    simp [hk1, hcan, hget1, hshould]
  have hget2 : getCachedResponse ctx.decodeBody
      (fun k =>
        if k = (cacheResponse ctx (generateCacheKey ctx.md5 req1.url) (ctx.upstream req1)
            (parseTTL req1.xttlHeader req1.cacheControlHeader)).key then
          some (cacheResponse ctx (generateCacheKey ctx.md5 req1.url) (ctx.upstream req1)
            (parseTTL req1.xttlHeader req1.cacheControlHeader))
        else ctx.store k)
      nowSql2 (generateCacheKey ctx.md5 req2.url)
      = some ((ctx.upstream req1).body, (ctx.upstream req1).status,
          (ctx.upstream req1).headersJson) := by
    unfold getCachedResponse lookupFreshRow cacheResponse
    rw [hurl]
    simp [hfresh, hcodec]
  rw [hurl] at hget2
  refine ⟨by rw [hurl],
    cacheResponse ctx (generateCacheKey ctx.md5 req1.url) (ctx.upstream req1)
      (parseTTL req1.xttlHeader req1.cacheControlHeader), hwrites, ?_, ?_⟩
  · unfold runFetch
    simp only [hget2, hk2, hurl, hcan, Bool.not_true, Bool.false_eq_true, if_false]
  · unfold runFetch
    simp only [hget2, hk2, hurl, hcan, Bool.not_true, Bool.false_eq_true, if_false]

theorem cacheKeyUrlOnly_headHitsGet_witness :
    (let ctx : HandlerCtx :=
      { serviceAuthKey := "s"
        md5 := fun _ => [171]
        encodeBody := fun s => s ++ "#"
        decodeBody := fun s => if s = "B#" then some "B" else none
        isoExpires := fun _ => "2"
        nowSql := "0"
        upstream := fun _ =>
          { status := 200, ok := true, cacheControl := none, body := "B", headersJson := "[]" }
        store := fun _ => none }
     let req1 : RequestModel :=
      { method := "GET", url := "https://w.example/rest/v1/c?select=*",
        serviceKeyHeader := some "s", xttlHeader := none, cacheControlHeader := none }
     let req2 : RequestModel :=
      { method := "HEAD", url := "https://w.example/rest/v1/c?select=*",
        serviceKeyHeader := some "s", xttlHeader := some "30", cacheControlHeader := none }
     req2.url = req1.url
       ∧ ctx.decodeBody (ctx.encodeBody (ctx.upstream req1).body) = some (ctx.upstream req1).body
       ∧ sqliteTextGt (ctx.isoExpires (parseTTL req1.xttlHeader req1.cacheControlHeader)) "1" = true
       ∧ (generateCacheKey ctx.md5 req2.url = generateCacheKey ctx.md5 req1.url
          ∧ ∃ row, (runFetch ctx req1).storeWrites = [row]
            ∧ (runFetch { ctx with nowSql := "1", store := fun k => if k = row.key then some row else ctx.store k } req2).response
                = .cached (ctx.upstream req1).body (ctx.upstream req1).status
                    (ctx.upstream req1).headersJson
            ∧ (runFetch { ctx with nowSql := "1", store := fun k => if k = row.key then some row else ctx.store k } req2).upstreamCalls
                = 0)) :=
  ⟨rfl, by decide, by decide,
    cacheKeyUrlOnly_headHitsGet _ _ _ "1" rfl (by decide) (by decide) rfl (by decide) rfl
      (by decide) (by decide) (by decide) (Or.inr (by decide)) (by decide) (by decide)⟩
